import Mathlib

set_option autoImplicit false

namespace ReData

/-- An alert record from the alerts export: the monitored model's name, the
alert type, and its remaining detail payload (severity, message and detection
time collapsed into one opaque string, which none of the verified claims
inspect). -/
structure Alert where
  model : String
  type : String
  detail : String
  deriving DecidableEq, Repr

/-- Modelled from the spec: a monitored-model record of the model export
(section 3, MonitoredModel) — the model name together with its per-channel
recipient identifier lists. The export's row schema lives outside src/. -/
structure MonitoredModel where
  name : String
  slackOwners : List String
  emailOwners : List String
  deriving DecidableEq, Repr

/-- Modelled from the spec: the canonical allowed alert-type set
(`ALERT_TYPES` of re_data.notifications.utils, imported by command_line.py
but not under src/); the spec's section 3 names anomaly, schema change and
test failure as the members of the fixed enumerated set. -/
def ALERT_TYPES : List String := ["anomaly", "schema_change", "test"]

/-- Modelled from the spec: `validate_alert_types` of
re_data.notifications.utils — validates the selection against the canonical
set and fails with an invalid-selection error naming every unrecognized type
before touching any data. -/
def validate_alert_types (select : List String) : Except (List String) Unit :=
  let bad := select.filter (fun s => decide (s ∉ ALERT_TYPES))
  if bad = [] then .ok () else .error bad

/-- Append `v` to the bucket of key `k`, creating the bucket at the end when
the key is absent — the shape a Python dict-of-lists accumulates in
insertion order. -/
def upsertApp {α : Type} (m : List (String × List α)) (k : String) (v : α) :
    List (String × List α) :=
  match m with
  | [] => [(k, [v])]
  | (k', vs) :: rest =>
    if k' = k then (k', vs ++ [v]) :: rest else (k', vs) :: upsertApp rest k v

/-- Fold the qualifying alerts (those whose type is selected) into a
model-keyed bucket map, in alert order. -/
def buildAlertsMap (sel : List String) :
    List Alert → List (String × List Alert) → List (String × List Alert)
  | [], acc => acc
  | a :: rest, acc =>
    buildAlertsMap sel rest (if a.type ∈ sel then upsertApp acc a.model a else acc)

/-- Modelled from the spec: `prepare_exported_alerts_per_model` of
re_data.notifications.utils (not under src/) — the broadcast-path per-model
aggregation of section 4.3: every model with at least one qualifying alert is
mapped to its qualifying records, and models with zero qualifying alerts are
excluded (the further grouping of a model's records by type is presentation
that no claim inspects). -/
def prepare_exported_alerts_per_model (alerts : List Alert) (sel : List String) :
    List (String × List Alert) :=
  buildAlertsMap sel alerts []

/-- Modelled from the spec: `create_models_to_alerts_map` of
re_data.notifications.utils (not under src/) — the mailbox-path aggregation of
section 4.3: model → qualifying records, independent of ownership. -/
def create_models_to_alerts_map (alerts : List Alert) (sel : List String) :
    List (String × List Alert) :=
  buildAlertsMap sel alerts []

/-- The reserved sentinel bucket for models lacking a configured email
owner. -/
def NO_OWNER : String := "NO_OWNER"

/-- One monitored model's contribution to the mailbox owner mapping: each of
its configured email owners receives the model, and a model with no owner
goes to the reserved `NO_OWNER` bucket. -/
def addOwnersOf (acc : List (String × List String)) (mm : MonitoredModel) :
    List (String × List String) :=
  if mm.emailOwners = [] then upsertApp acc NO_OWNER mm.name
  else mm.emailOwners.foldl (fun ac o => upsertApp ac o mm.name) acc

/-- Modelled from the spec: `create_owners_to_models_map` of
re_data.notifications.utils (not under src/) — the mailbox-channel
OwnershipResolver of section 4.2: invert the model/owner relation into
identifier → list of models, collecting every model lacking a configured
identifier into the reserved `NO_OWNER` bucket rather than dropping it. -/
def create_owners_to_models_map (monitored : List MonitoredModel) :
    List (String × List String) :=
  monitored.foldl addOwnersOf []

/-- Modelled from the spec: `build_notification_identifiers_per_model` of
re_data.notifications.utils (not under src/) — the broadcast-channel
OwnershipResolver of section 4.2: model → configured channel identifiers,
with models that have none mapping to an empty identifier list. -/
def build_notification_identifiers_per_model (monitored : List MonitoredModel) :
    List (String × List String) :=
  monitored.map (fun mm => (mm.name, mm.slackOwners))

/-- Association-list lookup with a default, mirroring Python's
`dict.get(k, d)`. -/
def lookupD {α : Type} : List (String × α) → String → α → α
  | [], _, d => d
  | (k', v) :: rest, k, d => if k' = k then v else lookupD rest k d

/-- The key list of a bucket map, in insertion order (Python dict iteration
order). -/
def keysOf {α : Type} (m : List (String × α)) : List String :=
  m.map Prod.fst

/-- Insert a key at the end unless already present — how a dict's key list
grows. -/
def keyInsert (acc : List String) (x : String) : List String :=
  if x ∈ acc then acc else acc ++ [x]

/-- First-occurrence deduplication, the key order a Python dict built by
repeated insertion presents. -/
def firstDedup (l : List String) : List String :=
  l.foldl keyInsert []

/-- Modelled from the spec: a broadcast payload — either the normal variant
built by `generate_slack_message` (model name, its qualifying records,
resolved owner mentions, subtitle and the selected types, per section 4.4) or
the all-clear variant of `generate_all_good_slack_message` (subtitle and a
fixed no-alerts statement, never enumerating models). Both builders live
outside src/. -/
inductive SlackMessage
  | modelAlert (model : String) (details : List Alert) (owners : List String)
      (subtitle : String) (selected : List String)
  | allGood (subtitle : String)
  deriving DecidableEq, Repr

/-- Modelled from the spec: the mailbox payload that `build_mime_message`
wraps around `render.render_email_alert` (both outside src/) — the per-model
alert map, the addressed owner, the model list rendered for that owner, and
the subject carrying the explicitly supplied current-time string. -/
structure EmailPayload where
  alertsMap : List (String × List Alert)
  owner : String
  models : List String
  subject : String
  deriving DecidableEq, Repr

/-- The observable steps of one notify invocation, in program order: the
export subprocess, the read of the exported JSON files, each outbound
dispatch, and the ledger append of `log_notification_status`. -/
inductive Event
  | exportRun
  | readExports
  | slackNotify (webhookUrl : String) (msg : SlackMessage)
  | emailSend (mailTo mailFrom : String) (payload : EmailPayload)
  | ledgerWrite (startDate endDate : String) (modelsWithAlerts : List String)
  deriving DecidableEq, Repr

/-- The fatal outcomes a notify invocation can end in. -/
inductive RunError
  | invalidAlertTypes (bad : List String)
  | exportFailed
  | transportFailed (mailTo : String)
  deriving DecidableEq, Repr

/-- The outcome of one notify invocation: the events it performed, in order,
and the fatal error that ended it, if any. -/
structure RunResult where
  events : List Event
  error : Option RunError
  deriving DecidableEq, Repr

/-- Whether an event is an outbound dispatch call. -/
def Event.isDispatch : Event → Bool
  | .slackNotify _ _ => true
  | .emailSend _ _ _ => true
  | _ => false

/-- Whether an event is the ledger append. -/
def Event.isLedger : Event → Bool
  | .ledgerWrite _ _ _ => true
  | _ => false

/-- The recipient of an email dispatch event. -/
def Event.mailTo? : Event → Option String
  | .emailSend mailTo _ _ => some mailTo
  | _ => none

/-- The payload of an email dispatch event. -/
def Event.emailPayload? : Event → Option EmailPayload
  | .emailSend _ _ p => some p
  | _ => none

/-- The model of a per-model broadcast dispatch event. -/
def Event.notifiedModel? : Event → Option String
  | .slackNotify _ (.modelAlert m _ _ _ _) => some m
  | _ => none

/-- Whether an event is the broadcast all-clear dispatch. -/
def Event.isAllGood : Event → Bool
  | .slackNotify _ (.allGood _) => true
  | _ => false

/-- The `slack` command of src/re_data/command_line.py (lines 471 to 525):
validate the selection, run the export subprocess (aborting on a non-zero
status), read the exports, aggregate alerts per model, send one message per
aggregated model, send the all-clear message when nothing was found and
send-all-good is on, and append the ledger entry. The export subprocess
outcome is the explicit input `exportOk`; the webhook transport is modelled
as always accepting (transport failure is examined on the email path, whose
loop structure the failing claims cite). -/
def slackRun (select : List String) (sendAllGood : Bool)
    (webhookUrl subtitle startDate endDate : String) (exportOk : Bool)
    (alerts : List Alert) (monitored : List MonitoredModel) : RunResult :=
  match validate_alert_types select with
  | .error bad => ⟨[], some (.invalidAlertTypes bad)⟩
  | .ok _ =>
    if exportOk then
      let slack_members := build_notification_identifiers_per_model monitored
      let alerts_per_model := prepare_exported_alerts_per_model alerts select
      let notifies := alerts_per_model.map (fun md =>
        Event.slackNotify webhookUrl
          (.modelAlert md.1 md.2 (lookupD slack_members md.1 []) subtitle select))
      let allGoods :=
        if alerts_per_model = [] ∧ sendAllGood = true then
          [Event.slackNotify webhookUrl (.allGood subtitle)]
        else []
      ⟨[Event.exportRun, Event.readExports] ++ notifies ++ allGoods ++
        [Event.ledgerWrite startDate endDate (keysOf alerts_per_model)], none⟩
    else ⟨[Event.exportRun], some .exportFailed⟩

/-- The payload built for one concrete owner inside the email loop: the whole
model-to-alerts map, the owner, the owner's own models union the unowned
models (Python's `set(models_to_notify + models_with_no_owners)`), and the
subject carrying the current-time string read once before the loop. -/
def payloadFor (ownersMap : List (String × List String))
    (alertsMap : List (String × List Alert)) (currentTime o : String) :
    EmailPayload :=
  ⟨alertsMap, o,
    firstDedup (lookupD ownersMap o [] ++ lookupD ownersMap NO_OWNER []),
    "ReData Alerts [" ++ currentTime ++ "]"⟩

/-- The recipient loop of the `email` command (src/re_data/command_line.py
lines 616 to 643): skip the `NO_OWNER` key, exit the loop when the
aggregation is empty and send-all-good is off, otherwise build and send one
message per owner. A transport failure propagates (the source has no
handler), so the loop stops at the failing recipient with the attempt
recorded. -/
def emailLoop (mailFrom : String) (sendFails : String → Bool)
    (sendAllGood : Bool) (currentTime : String)
    (ownersMap : List (String × List String))
    (alertsMap : List (String × List Alert)) :
    List String → List Event × Option RunError
  | [] => ([], none)
  | o :: rest =>
    if o = NO_OWNER then
      emailLoop mailFrom sendFails sendAllGood currentTime ownersMap alertsMap rest
    else if alertsMap = [] ∧ sendAllGood = false then ([], none)
    else
      let ev := Event.emailSend o mailFrom (payloadFor ownersMap alertsMap currentTime o)
      if sendFails o then ([ev], some (.transportFailed o))
      else
        let r := emailLoop mailFrom sendFails sendAllGood currentTime ownersMap alertsMap rest
        (ev :: r.1, r.2)

/-- The `email` command of src/re_data/command_line.py (lines 570 to 645):
validate the selection, run the export subprocess (aborting on a non-zero
status), read the exports, build the owner-to-models and model-to-alerts
maps, iterate the owners sending one message each, and append the ledger
entry. The transport behaviour of `send_mime_email` is the explicit input
`sendFails` (true means the SMTP transaction for that recipient raises);
a raised transport error ends the run before the ledger append. -/
def emailRun (select : List String) (sendAllGood : Bool)
    (mailFrom startDate endDate currentTime : String) (exportOk : Bool)
    (alerts : List Alert) (monitored : List MonitoredModel)
    (sendFails : String → Bool) : RunResult :=
  match validate_alert_types select with
  | .error bad => ⟨[], some (.invalidAlertTypes bad)⟩
  | .ok _ =>
    if exportOk then
      let email_to_models_map := create_owners_to_models_map monitored
      let model_to_alerts_map := create_models_to_alerts_map alerts select
      let r := emailLoop mailFrom sendFails sendAllGood currentTime
        email_to_models_map model_to_alerts_map (keysOf email_to_models_map)
      match r.2 with
      | some e => ⟨[Event.exportRun, Event.readExports] ++ r.1, some e⟩
      | none => ⟨[Event.exportRun, Event.readExports] ++ r.1 ++
          [Event.ledgerWrite startDate endDate (keysOf model_to_alerts_map)], none⟩
    else ⟨[Event.exportRun], some .exportFailed⟩

/-- The recipient loop with the empty-aggregation exit removed — the loop
body the specification's guarded formulation iterates. -/
def emailLoopNoBreak (mailFrom : String) (sendFails : String → Bool)
    (currentTime : String) (ownersMap : List (String × List String))
    (alertsMap : List (String × List Alert)) :
    List String → List Event × Option RunError
  | [] => ([], none)
  | o :: rest =>
    if o = NO_OWNER then
      emailLoopNoBreak mailFrom sendFails currentTime ownersMap alertsMap rest
    else
      let ev := Event.emailSend o mailFrom (payloadFor ownersMap alertsMap currentTime o)
      if sendFails o then ([ev], some (.transportFailed o))
      else
        let r := emailLoopNoBreak mailFrom sendFails currentTime ownersMap alertsMap rest
        (ev :: r.1, r.2)

/-- Modelled from the spec's words (sections 4.5 and 9): the mailbox run with
the empty-aggregation-and-no-send-all-good decision taken as a single guard
evaluated once before the recipient loop begins, skipping the whole loop and
proceeding to the ledger append. -/
def emailRunGuarded (select : List String) (sendAllGood : Bool)
    (mailFrom startDate endDate currentTime : String) (exportOk : Bool)
    (alerts : List Alert) (monitored : List MonitoredModel)
    (sendFails : String → Bool) : RunResult :=
  match validate_alert_types select with
  | .error bad => ⟨[], some (.invalidAlertTypes bad)⟩
  | .ok _ =>
    if exportOk then
      let email_to_models_map := create_owners_to_models_map monitored
      let model_to_alerts_map := create_models_to_alerts_map alerts select
      if model_to_alerts_map = [] ∧ sendAllGood = false then
        ⟨[Event.exportRun, Event.readExports] ++
          [Event.ledgerWrite startDate endDate (keysOf model_to_alerts_map)], none⟩
      else
        let r := emailLoopNoBreak mailFrom sendFails currentTime
          email_to_models_map model_to_alerts_map (keysOf email_to_models_map)
        match r.2 with
        | some e => ⟨[Event.exportRun, Event.readExports] ++ r.1, some e⟩
        | none => ⟨[Event.exportRun, Event.readExports] ++ r.1 ++
            [Event.ledgerWrite startDate endDate (keysOf model_to_alerts_map)], none⟩
    else ⟨[Event.exportRun], some .exportFailed⟩

/-- The per-recipient attempt trace a run with the given transport behaviour
produces from an owner list: each owner once, stopping at (and including)
the first failing one. -/
def attempted (sendFails : String → Bool) : List String → List String
  | [] => []
  | o :: rest => if sendFails o then [o] else o :: attempted sendFails rest

/-- Whether the given alert record occurs in the rendered content of an
event's payload. -/
def alertInEvent (a : Alert) : Event → Prop
  | .slackNotify _ (.modelAlert _ details _ _ _) => a ∈ details
  | .emailSend _ _ p => ∃ entry ∈ p.alertsMap, a ∈ entry.2
  | _ => False

@[simp]
theorem keysOf_nil {α : Type} : keysOf ([] : List (String × α)) = [] := rfl

@[simp]
theorem keysOf_cons {α : Type} (p : String × α) (m : List (String × α)) :
    keysOf (p :: m) = p.1 :: keysOf m := rfl

theorem mem_keyInsert (acc : List String) (x y : String) :
    y ∈ keyInsert acc x ↔ y ∈ acc ∨ y = x := by
  unfold keyInsert
  by_cases h : x ∈ acc
  · rw [if_pos h]
    constructor
    · exact fun hy => Or.inl hy
    · rintro (hy | rfl)
      · exact hy
      · exact h
  · rw [if_neg h]
    simp

theorem keyInsert_nodup (acc : List String) (x : String) (h : acc.Nodup) :
    (keyInsert acc x).Nodup := by
  unfold keyInsert
  by_cases hx : x ∈ acc
  · simpa [if_pos hx] using h
  · rw [if_neg hx]
    simp [List.nodup_append, h, hx]

theorem mem_foldl_keyInsert (l : List String) (acc : List String) (y : String) :
    y ∈ l.foldl keyInsert acc ↔ y ∈ acc ∨ y ∈ l := by
  induction l generalizing acc with
  | nil => simp
  | cons x xs ih =>
    simp only [List.foldl_cons, ih, mem_keyInsert, List.mem_cons]
    tauto

theorem nodup_foldl_keyInsert (l : List String) (acc : List String) (h : acc.Nodup) :
    (l.foldl keyInsert acc).Nodup := by
  induction l generalizing acc with
  | nil => simpa using h
  | cons x xs ih => exact ih _ (keyInsert_nodup _ _ h)

theorem mem_firstDedup (l : List String) (y : String) :
    y ∈ firstDedup l ↔ y ∈ l := by
  unfold firstDedup
  simp [mem_foldl_keyInsert]

theorem firstDedup_nodup (l : List String) : (firstDedup l).Nodup :=
  nodup_foldl_keyInsert l [] (by simp)

theorem upsertApp_keys {α : Type} (m : List (String × List α)) (k : String) (v : α) :
    keysOf (upsertApp m k v) = keyInsert (keysOf m) k := by
  induction m with
  | nil => simp [upsertApp, keyInsert]
  | cons p rest ih =>
    obtain ⟨k', vs⟩ := p
    by_cases h : k' = k
    · subst h
      simp [upsertApp, keyInsert]
    · simp only [upsertApp, if_neg h, keysOf_cons, ih]
      unfold keyInsert
      by_cases hk : k ∈ keysOf rest
      · rw [if_pos hk, if_pos (by simp [hk])]
      · rw [if_neg hk, if_neg (by
          simp only [keysOf_cons, List.mem_cons, hk, or_false]
          exact fun hh => h hh.symm), List.cons_append]

theorem upsertApp_keys_nodup {α : Type} (m : List (String × List α)) (k : String)
    (v : α) (h : (keysOf m).Nodup) : (keysOf (upsertApp m k v)).Nodup := by
  rw [upsertApp_keys]
  exact keyInsert_nodup _ _ h

theorem upsertApp_values {α : Type} (P : α → Prop) (m : List (String × List α))
    (k : String) (v : α) (hm : ∀ p ∈ m, ∀ x ∈ p.2, P x) (hv : P v) :
    ∀ p ∈ upsertApp m k v, ∀ x ∈ p.2, P x := by
  induction m with
  | nil =>
    intro p hp x hx
    simp only [upsertApp, List.mem_singleton] at hp
    subst hp
    simp only [List.mem_singleton] at hx
    subst hx
    exact hv
  | cons q rest ih =>
    obtain ⟨k', vs⟩ := q
    intro p hp x hx
    by_cases h : k' = k
    · simp only [upsertApp, if_pos h] at hp
      rcases List.mem_cons.mp hp with rfl | hp'
      · rcases List.mem_append.mp hx with hxv | hxv
        · exact hm (k', vs) (by simp) x hxv
        · simp only [List.mem_singleton] at hxv
          subst hxv
          exact hv
      · exact hm p (List.mem_cons_of_mem _ hp') x hx
    · simp only [upsertApp, if_neg h] at hp
      rcases List.mem_cons.mp hp with rfl | hp'
      · exact hm (k', vs) (by simp) x hx
      · exact ih (fun q hq => hm q (List.mem_cons_of_mem _ hq)) p hp' x hx

theorem buildAlertsMap_keys (sel : List String) (alerts : List Alert)
    (acc : List (String × List Alert)) :
    keysOf (buildAlertsMap sel alerts acc) =
      ((alerts.filter (fun a => decide (a.type ∈ sel))).map (fun a => a.model)).foldl
        keyInsert (keysOf acc) := by
  induction alerts generalizing acc with
  | nil => simp [buildAlertsMap]
  | cons a rest ih =>
    by_cases h : a.type ∈ sel
    · simp only [buildAlertsMap, if_pos h, ih, List.filter_cons, decide_eq_true h,
        if_pos, List.map_cons, List.foldl_cons, upsertApp_keys]
    · have hd : decide (a.type ∈ sel) = false := by simp [h]
      simp only [buildAlertsMap, if_neg h, ih, List.filter_cons, hd,
        Bool.false_eq_true, if_false]

theorem buildAlertsMap_keys_nodup (sel : List String) (alerts : List Alert)
    (acc : List (String × List Alert)) (h : (keysOf acc).Nodup) :
    (keysOf (buildAlertsMap sel alerts acc)).Nodup := by
  rw [buildAlertsMap_keys]
  exact nodup_foldl_keyInsert _ _ h

theorem prepare_keys (alerts : List Alert) (sel : List String) :
    keysOf (prepare_exported_alerts_per_model alerts sel) =
      firstDedup ((alerts.filter (fun a => decide (a.type ∈ sel))).map
        (fun a => a.model)) := by
  unfold prepare_exported_alerts_per_model firstDedup
  simpa using buildAlertsMap_keys sel alerts []

theorem buildAlertsMap_types (sel : List String) (alerts : List Alert)
    (acc : List (String × List Alert))
    (hacc : ∀ p ∈ acc, ∀ a ∈ p.2, a.type ∈ sel) :
    ∀ p ∈ buildAlertsMap sel alerts acc, ∀ a ∈ p.2, a.type ∈ sel := by
  induction alerts generalizing acc with
  | nil => simpa [buildAlertsMap] using hacc
  | cons a rest ih =>
    by_cases h : a.type ∈ sel
    · simp only [buildAlertsMap, if_pos h]
      exact ih _ (upsertApp_values _ _ _ _ hacc h)
    · simp only [buildAlertsMap, if_neg h]
      exact ih _ hacc

theorem owners_foldl_keys_nodup (owners : List String) (name : String)
    (acc : List (String × List String)) (h : (keysOf acc).Nodup) :
    (keysOf (owners.foldl (fun ac o => upsertApp ac o name) acc)).Nodup := by
  induction owners generalizing acc with
  | nil => simpa using h
  | cons o os ih => exact ih _ (upsertApp_keys_nodup _ _ _ h)

theorem addOwnersOf_keys_nodup (acc : List (String × List String))
    (mm : MonitoredModel) (h : (keysOf acc).Nodup) :
    (keysOf (addOwnersOf acc mm)).Nodup := by
  unfold addOwnersOf
  by_cases hE : mm.emailOwners = []
  · rw [if_pos hE]
    exact upsertApp_keys_nodup _ _ _ h
  · rw [if_neg hE]
    exact owners_foldl_keys_nodup _ _ _ h

theorem foldl_addOwnersOf_keys_nodup (monitored : List MonitoredModel)
    (acc : List (String × List String)) (h : (keysOf acc).Nodup) :
    (keysOf (monitored.foldl addOwnersOf acc)).Nodup := by
  induction monitored generalizing acc with
  | nil => simpa using h
  | cons mm rest ih => exact ih _ (addOwnersOf_keys_nodup _ _ h)

theorem create_owners_keys_nodup (monitored : List MonitoredModel) :
    (keysOf (create_owners_to_models_map monitored)).Nodup :=
  foldl_addOwnersOf_keys_nodup monitored [] (by simp)

theorem emailLoop_of_break (mailFrom : String) (sendFails : String → Bool)
    (sendAllGood : Bool) (currentTime : String)
    (ownersMap : List (String × List String))
    (alertsMap : List (String × List Alert))
    (hb : alertsMap = [] ∧ sendAllGood = false) (keys : List String) :
    emailLoop mailFrom sendFails sendAllGood currentTime ownersMap alertsMap keys
      = ([], none) := by
  induction keys with
  | nil => rfl
  | cons o rest ih =>
    by_cases h : o = NO_OWNER
    · simp only [emailLoop, if_pos h]
      exact ih
    · simp only [emailLoop, if_neg h, if_pos hb]

theorem emailLoop_of_no_break (mailFrom : String) (sendFails : String → Bool)
    (sendAllGood : Bool) (currentTime : String)
    (ownersMap : List (String × List String))
    (alertsMap : List (String × List Alert))
    (hnb : ¬ (alertsMap = [] ∧ sendAllGood = false)) (keys : List String) :
    emailLoop mailFrom sendFails sendAllGood currentTime ownersMap alertsMap keys =
      ((attempted sendFails (keys.filter (fun o => decide (o ≠ NO_OWNER)))).map
          (fun o => Event.emailSend o mailFrom
            (payloadFor ownersMap alertsMap currentTime o)),
        ((keys.filter (fun o => decide (o ≠ NO_OWNER))).find? sendFails).map
          RunError.transportFailed) := by
  induction keys with
  | nil => rfl
  | cons o rest ih =>
    by_cases h : o = NO_OWNER
    · have hpred : (decide (o ≠ NO_OWNER)) = false := by simp [h]
      simp only [emailLoop, if_pos h, List.filter_cons, hpred, Bool.false_eq_true,
        if_false]
      exact ih
    · have hpred : (decide (o ≠ NO_OWNER)) = true := by simp [h]
      simp only [emailLoop, if_neg h, if_neg hnb, List.filter_cons, hpred, if_true]
      by_cases hf : sendFails o = true
      · simp [hf, attempted, List.find?_cons]
      · have hf' : sendFails o = false := by
          cases hq : sendFails o
          · rfl
          · exact absurd hq hf
        simp [hf', attempted, List.find?_cons, ih]

theorem emailLoopNoBreak_closed (mailFrom : String) (sendFails : String → Bool)
    (currentTime : String) (ownersMap : List (String × List String))
    (alertsMap : List (String × List Alert)) (keys : List String) :
    emailLoopNoBreak mailFrom sendFails currentTime ownersMap alertsMap keys =
      ((attempted sendFails (keys.filter (fun o => decide (o ≠ NO_OWNER)))).map
          (fun o => Event.emailSend o mailFrom
            (payloadFor ownersMap alertsMap currentTime o)),
        ((keys.filter (fun o => decide (o ≠ NO_OWNER))).find? sendFails).map
          RunError.transportFailed) := by
  induction keys with
  | nil => rfl
  | cons o rest ih =>
    by_cases h : o = NO_OWNER
    · have hpred : (decide (o ≠ NO_OWNER)) = false := by simp [h]
      simp only [emailLoopNoBreak, if_pos h, List.filter_cons, hpred,
        Bool.false_eq_true, if_false]
      exact ih
    · have hpred : (decide (o ≠ NO_OWNER)) = true := by simp [h]
      simp only [emailLoopNoBreak, if_neg h, List.filter_cons, hpred, if_true]
      by_cases hf : sendFails o = true
      · simp [hf, attempted, List.find?_cons]
      · have hf' : sendFails o = false := by
          cases hq : sendFails o
          · rfl
          · exact absurd hq hf
        simp [hf', attempted, List.find?_cons, ih]

theorem attempted_of_no_fail (sendFails : String → Bool) (l : List String)
    (h : ∀ o ∈ l, sendFails o = false) : attempted sendFails l = l := by
  induction l with
  | nil => rfl
  | cons o rest ih =>
    simp only [attempted, h o (by simp), Bool.false_eq_true, if_false]
    rw [ih (fun x hx => h x (List.mem_cons_of_mem _ hx))]

theorem find?_of_no_fail (sendFails : String → Bool) (l : List String)
    (h : ∀ o ∈ l, sendFails o = false) : l.find? sendFails = none := by
  induction l with
  | nil => rfl
  | cons o rest ih =>
    rw [List.find?_cons, h o (by simp)]
    exact ih (fun x hx => h x (List.mem_cons_of_mem _ hx))

/-- Claim C7: with a failing export subprocess the run aborts before any
dispatch call and before any ledger write, on either channel — the event
trace carries no dispatch and no ledger event, whatever the remaining
inputs are. -/
theorem c7_export_failure_aborts_before_dispatch_and_ledger
    (select : List String) (sendAllGood : Bool)
    (webhookUrl subtitle mailFrom startDate endDate currentTime : String)
    (alerts : List Alert) (monitored : List MonitoredModel)
    (sendFails : String → Bool) :
    ((slackRun select sendAllGood webhookUrl subtitle startDate endDate false alerts
        monitored).events.countP Event.isDispatch = 0 ∧
      (slackRun select sendAllGood webhookUrl subtitle startDate endDate false alerts
        monitored).events.countP Event.isLedger = 0) ∧
    ((emailRun select sendAllGood mailFrom startDate endDate currentTime false alerts
        monitored sendFails).events.countP Event.isDispatch = 0 ∧
      (emailRun select sendAllGood mailFrom startDate endDate currentTime false alerts
        monitored sendFails).events.countP Event.isLedger = 0) := by
  cases h : validate_alert_types select with
  | error bad =>
    simp [slackRun, emailRun, h]
  | ok u =>
    simp [slackRun, emailRun, h, Event.isDispatch, Event.isLedger]

/-- Claim C2: a selection containing a type outside the canonical allowed
set makes both channels fail before any event at all (no export subprocess,
no file read, no dispatch, no ledger), and the invalid-selection error names
every unrecognized type of the selection. -/
theorem c2_invalid_selection_fails_before_any_io
    (select : List String) (sendAllGood : Bool)
    (webhookUrl subtitle mailFrom startDate endDate currentTime : String)
    (exportOk : Bool) (alerts : List Alert) (monitored : List MonitoredModel)
    (sendFails : String → Bool)
    (hbad : select.filter (fun s => decide (s ∉ ALERT_TYPES)) ≠ []) :
    slackRun select sendAllGood webhookUrl subtitle startDate endDate exportOk alerts
        monitored =
      ⟨[], some (.invalidAlertTypes
        (select.filter (fun s => decide (s ∉ ALERT_TYPES))))⟩ ∧
    emailRun select sendAllGood mailFrom startDate endDate currentTime exportOk alerts
        monitored sendFails =
      ⟨[], some (.invalidAlertTypes
        (select.filter (fun s => decide (s ∉ ALERT_TYPES))))⟩ ∧
    ∀ s ∈ select, s ∉ ALERT_TYPES →
      s ∈ select.filter (fun s => decide (s ∉ ALERT_TYPES)) := by
  have hv : validate_alert_types select =
      .error (select.filter (fun s => decide (s ∉ ALERT_TYPES))) := by
    simp only [validate_alert_types]
    rw [if_neg hbad]
  refine ⟨?_, ?_, ?_⟩
  · simp [slackRun, hv]
  · simp [emailRun, hv]
  · intro s hs hnot
    simp [List.mem_filter, hs, hnot]

/-- Witness for Claim C2 at the concrete selection [anomaly, bogus,
nonsense]: the run of either channel performs no event and the error names
both unrecognized types. -/
theorem c2_invalid_selection_fails_before_any_io_witness :
    ["anomaly", "bogus", "nonsense"].filter (fun s => decide (s ∉ ALERT_TYPES)) ≠ [] ∧
    slackRun ["anomaly", "bogus", "nonsense"] true "wh" "sub" "2024-01-01" "2024-01-08"
        true [] [] =
      ⟨[], some (.invalidAlertTypes ["bogus", "nonsense"])⟩ := by
  have h := c2_invalid_selection_fails_before_any_io ["anomaly", "bogus", "nonsense"]
    true "wh" "sub" "from@x" "2024-01-01" "2024-01-08" "T" true [] [] (fun _ => false)
    (by decide)
  have hf : ["anomaly", "bogus", "nonsense"].filter (fun s => decide (s ∉ ALERT_TYPES))
      = ["bogus", "nonsense"] := by decide
  refine ⟨by decide, ?_⟩
  rw [h.1, hf]

/-- Claim C9: rendering is pure and deterministic — the full run outcome
(hence every dispatched payload byte) is a function of the derived
aggregation and owner maps together with the explicitly supplied inputs
(subtitle and the current-time string are arguments, never a hidden clock
read inside rendering), so identical inputs yield identical payloads. -/
theorem c9_rendering_pure_deterministic
    (select : List String) (sendAllGood : Bool)
    (webhookUrl subtitle mailFrom startDate endDate currentTime : String)
    (exportOk : Bool) (a1 a2 : List Alert) (m1 m2 : List MonitoredModel)
    (sendFails : String → Bool)
    (hmembers : build_notification_identifiers_per_model m1 =
      build_notification_identifiers_per_model m2)
    (hprep : prepare_exported_alerts_per_model a1 select =
      prepare_exported_alerts_per_model a2 select)
    (howners : create_owners_to_models_map m1 = create_owners_to_models_map m2)
    (halerts : create_models_to_alerts_map a1 select =
      create_models_to_alerts_map a2 select) :
    slackRun select sendAllGood webhookUrl subtitle startDate endDate exportOk a1 m1 =
      slackRun select sendAllGood webhookUrl subtitle startDate endDate exportOk a2 m2 ∧
    emailRun select sendAllGood mailFrom startDate endDate currentTime exportOk a1 m1
        sendFails =
      emailRun select sendAllGood mailFrom startDate endDate currentTime exportOk a2 m2
        sendFails := by
  constructor
  · simp only [slackRun, hmembers, hprep]
  · simp only [emailRun, howners, halerts]

/-- Witness for Claim C9: two different raw alert exports with the same
derived aggregation (the second record's type is outside the selection)
produce identical email runs. -/
theorem c9_rendering_pure_deterministic_witness :
    create_models_to_alerts_map
        [⟨"orders", "anomaly", "v1"⟩, ⟨"orders", "schema_change", "v2"⟩] ["anomaly"] =
      create_models_to_alerts_map [⟨"orders", "anomaly", "v1"⟩] ["anomaly"] ∧
    emailRun ["anomaly"] true "from@x" "2024-01-01" "2024-01-08" "T" true
        [⟨"orders", "anomaly", "v1"⟩, ⟨"orders", "schema_change", "v2"⟩]
        [⟨"orders", ["@o"], ["a@x.com"]⟩] (fun _ => false) =
      emailRun ["anomaly"] true "from@x" "2024-01-01" "2024-01-08" "T" true
        [⟨"orders", "anomaly", "v1"⟩]
        [⟨"orders", ["@o"], ["a@x.com"]⟩] (fun _ => false) :=
  ⟨by decide,
    (c9_rendering_pure_deterministic ["anomaly"] true "wh" "sub" "from@x" "2024-01-01"
      "2024-01-08" "T" true
      [⟨"orders", "anomaly", "v1"⟩, ⟨"orders", "schema_change", "v2"⟩]
      [⟨"orders", "anomaly", "v1"⟩]
      [⟨"orders", ["@o"], ["a@x.com"]⟩] [⟨"orders", ["@o"], ["a@x.com"]⟩]
      (fun _ => false) rfl (by decide) rfl (by decide)).2⟩

/-- Claim C8: the empty-aggregation-and-no-send-all-good exit implemented as
a break inside the email recipient loop is observationally equivalent to a
single guard evaluated once before the loop begins, for every input (hence
for every recipient iteration order); in that case the run performs zero
deliveries, never a partial subset of recipients. -/
theorem c8_break_equivalent_to_single_guard
    (select : List String) (sendAllGood : Bool)
    (mailFrom startDate endDate currentTime : String) (exportOk : Bool)
    (alerts : List Alert) (monitored : List MonitoredModel)
    (sendFails : String → Bool) :
    emailRun select sendAllGood mailFrom startDate endDate currentTime exportOk alerts
        monitored sendFails =
      emailRunGuarded select sendAllGood mailFrom startDate endDate currentTime
        exportOk alerts monitored sendFails ∧
    (create_models_to_alerts_map alerts select = [] → sendAllGood = false →
      (emailRun select sendAllGood mailFrom startDate endDate currentTime exportOk
        alerts monitored sendFails).events.countP Event.isDispatch = 0) := by
  constructor
  · unfold emailRun emailRunGuarded
    cases h : validate_alert_types select with
    | error bad => rfl
    | ok u =>
      cases exportOk with
      | false => rfl
      | true =>
        by_cases hc : create_models_to_alerts_map alerts select = [] ∧
          sendAllGood = false
        · simp [emailLoop_of_break _ _ _ _ _ _ hc, if_pos hc]
        · simp [emailLoop_of_no_break _ _ _ _ _ _ hc, emailLoopNoBreak_closed,
            if_neg hc]
  · intro h1 h2
    unfold emailRun
    cases h : validate_alert_types select with
    | error bad => simp
    | ok u =>
      cases exportOk with
      | false => simp [Event.isDispatch]
      | true =>
        simp [emailLoop_of_break _ _ _ _ _ _ ⟨h1, h2⟩, Event.isDispatch,
          List.countP_cons]

/-- Witness for Claim C8 at a concrete run with two concrete owners, an
empty aggregation and send-all-good disabled: zero dispatch events for the
whole run. -/
theorem c8_break_equivalent_to_single_guard_witness :
    (emailRun ["anomaly"] false "from@x" "2024-01-01" "2024-01-08" "T" true []
      [⟨"orders", [], ["a@x.com"]⟩, ⟨"users", [], ["b@y.com"]⟩]
      (fun _ => false)).events.countP Event.isDispatch = 0 :=
  (c8_break_equivalent_to_single_guard ["anomaly"] false "from@x" "2024-01-01"
    "2024-01-08" "T" true []
    [⟨"orders", [], ["a@x.com"]⟩, ⟨"users", [], ["b@y.com"]⟩]
    (fun _ => false)).2 (by decide) rfl

theorem filterMap_notifiedModel_notifies (webhookUrl subtitle : String)
    (select : List String) (members : List (String × List String))
    (apm : List (String × List Alert)) :
    List.filterMap
      (Event.notifiedModel? ∘ fun md => Event.slackNotify webhookUrl
        (SlackMessage.modelAlert md.1 md.2 (lookupD members md.1 []) subtitle select))
      apm = keysOf apm := by
  induction apm with
  | nil => rfl
  | cons md rest ih =>
    simp [List.filterMap_cons, Event.notifiedModel?, Function.comp, ih]

theorem countP_isAllGood_notifies (webhookUrl subtitle : String)
    (select : List String) (members : List (String × List String))
    (apm : List (String × List Alert)) :
    (apm.map (fun md => Event.slackNotify webhookUrl
        (.modelAlert md.1 md.2 (lookupD members md.1 []) subtitle select))).countP
      Event.isAllGood = 0 := by
  induction apm with
  | nil => rfl
  | cons md rest ih =>
    simp [List.countP_cons, Event.isAllGood, ih]

theorem countP_isDispatch_notifies (webhookUrl subtitle : String)
    (select : List String) (members : List (String × List String))
    (apm : List (String × List Alert)) :
    (apm.map (fun md => Event.slackNotify webhookUrl
        (.modelAlert md.1 md.2 (lookupD members md.1 []) subtitle select))).countP
      Event.isDispatch = apm.length := by
  induction apm with
  | nil => rfl
  | cons md rest ih =>
    simp [List.countP_cons, Event.isDispatch, ih]

/-- Claim C1: on the broadcast channel the run makes exactly one per-model
notify call for each distinct model with at least one qualifying alert (the
dispatched model list equals the deduplicated qualifying-model list, which
has no duplicates); when that list is empty and send-all-good is on exactly
one all-clear call is made, and when it is off no dispatch happens at all. -/
theorem c1_broadcast_one_notify_per_alerting_model
    (select : List String) (sendAllGood : Bool)
    (webhookUrl subtitle startDate endDate : String)
    (alerts : List Alert) (monitored : List MonitoredModel)
    (hval : validate_alert_types select = .ok ()) :
    (slackRun select sendAllGood webhookUrl subtitle startDate endDate true alerts
        monitored).events.filterMap Event.notifiedModel? =
      firstDedup ((alerts.filter (fun a => decide (a.type ∈ select))).map
        (fun a => a.model)) ∧
    (firstDedup ((alerts.filter (fun a => decide (a.type ∈ select))).map
      (fun a => a.model))).Nodup ∧
    (slackRun select sendAllGood webhookUrl subtitle startDate endDate true alerts
        monitored).events.countP Event.isAllGood =
      (if firstDedup ((alerts.filter (fun a => decide (a.type ∈ select))).map
          (fun a => a.model)) = [] ∧ sendAllGood = true then 1 else 0) ∧
    (slackRun select sendAllGood webhookUrl subtitle startDate endDate true alerts
        monitored).events.countP Event.isDispatch =
      (firstDedup ((alerts.filter (fun a => decide (a.type ∈ select))).map
          (fun a => a.model))).length +
        (if firstDedup ((alerts.filter (fun a => decide (a.type ∈ select))).map
          (fun a => a.model)) = [] ∧ sendAllGood = true then 1 else 0) := by
  have hkeys := prepare_keys alerts select
  unfold slackRun
  rw [hval]
  by_cases happm : prepare_exported_alerts_per_model alerts select = []
  · have hq : firstDedup ((alerts.filter (fun a => decide (a.type ∈ select))).map
        (fun a => a.model)) = [] := by
      rw [← hkeys, happm]
      rfl
    cases sendAllGood with
    | false =>
      simp [happm, hq, List.countP_cons, Event.isAllGood, Event.isDispatch,
        Event.notifiedModel?]
    | true =>
      simp [happm, hq, List.countP_cons, Event.isAllGood, Event.isDispatch,
        Event.notifiedModel?, List.filterMap_cons]
  · have hq : firstDedup ((alerts.filter (fun a => decide (a.type ∈ select))).map
        (fun a => a.model)) ≠ [] := by
      rw [← hkeys]
      intro hc
      exact happm (by simpa [keysOf, List.map_eq_nil_iff] using hc)
    have hcond : ¬ (prepare_exported_alerts_per_model alerts select = [] ∧
        sendAllGood = true) := fun hc => happm hc.1
    have hlen : (firstDedup ((alerts.filter (fun a => decide (a.type ∈ select))).map
        (fun a => a.model))).length =
        (prepare_exported_alerts_per_model alerts select).length := by
      rw [← hkeys]
      simp [keysOf]
    refine ⟨?_, firstDedup_nodup _, ?_, ?_⟩
    · simp [if_neg hcond, List.filterMap_append, List.filterMap_cons,
        Event.notifiedModel?, List.filterMap_map, filterMap_notifiedModel_notifies,
        hkeys]
    · simp [if_neg hcond, hq, List.countP_append, List.countP_cons, Event.isAllGood,
        countP_isAllGood_notifies]
    · simp [if_neg hcond, hq, hlen, List.countP_append, List.countP_cons,
        Event.isDispatch, countP_isDispatch_notifies]

/-- Witness for Claim C1: a run with two alerting models dispatches exactly
those two models; an empty run with send-all-good on makes exactly one
all-clear call; an empty run with it off makes zero dispatch calls. -/
theorem c1_broadcast_one_notify_per_alerting_model_witness :
    (slackRun ["anomaly"] true "wh" "sub" "2024-01-01" "2024-01-08" true
        [⟨"orders", "anomaly", "v1"⟩, ⟨"users", "anomaly", "v2"⟩,
          ⟨"orders", "schema_change", "v3"⟩]
        [⟨"orders", ["@o"], []⟩]).events.filterMap Event.notifiedModel? =
      ["orders", "users"] ∧
    (slackRun ["anomaly"] true "wh" "sub" "2024-01-01" "2024-01-08" true [] []).events.countP
      Event.isAllGood = 1 ∧
    (slackRun ["anomaly"] false "wh" "sub" "2024-01-01" "2024-01-08" true [] []).events.countP
      Event.isDispatch = 0 := by
  have h1 := c1_broadcast_one_notify_per_alerting_model ["anomaly"] true "wh" "sub"
    "2024-01-01" "2024-01-08"
    [⟨"orders", "anomaly", "v1"⟩, ⟨"users", "anomaly", "v2"⟩,
      ⟨"orders", "schema_change", "v3"⟩]
    [⟨"orders", ["@o"], []⟩] rfl
  have h2 := c1_broadcast_one_notify_per_alerting_model ["anomaly"] true "wh" "sub"
    "2024-01-01" "2024-01-08" [] [] rfl
  have h3 := c1_broadcast_one_notify_per_alerting_model ["anomaly"] false "wh" "sub"
    "2024-01-01" "2024-01-08" [] [] rfl
  refine ⟨?_, ?_, ?_⟩
  · rw [h1.1]
    decide
  · rw [h2.2.2.1]
    decide
  · rw [h3.2.2.2]
    decide

theorem filterMap_mailTo_sends (mailFrom : String) (f : String → EmailPayload)
    (l : List String) :
    List.filterMap (Event.mailTo? ∘ fun o => Event.emailSend o mailFrom (f o)) l
      = l := by
  induction l with
  | nil => rfl
  | cons o rest ih =>
    simp [List.filterMap_cons, Event.mailTo?, Function.comp, ih]

theorem filterMap_payload_sends (mailFrom : String) (f : String → EmailPayload)
    (l : List String) :
    List.filterMap (Event.emailPayload? ∘ fun o => Event.emailSend o mailFrom (f o)) l
      = l.map f := by
  induction l with
  | nil => rfl
  | cons o rest ih =>
    simp [List.filterMap_cons, Event.emailPayload?, Function.comp, ih]

theorem countP_isDispatch_sends (mailFrom : String) (f : String → EmailPayload)
    (l : List String) :
    (l.map (fun o => Event.emailSend o mailFrom (f o))).countP Event.isDispatch
      = l.length := by
  induction l with
  | nil => rfl
  | cons o rest ih =>
    simp [List.countP_cons, Event.isDispatch, ih]

theorem countP_isLedger_sends (mailFrom : String) (f : String → EmailPayload)
    (l : List String) :
    (l.map (fun o => Event.emailSend o mailFrom (f o))).countP Event.isLedger
      = 0 := by
  induction l with
  | nil => rfl
  | cons o rest ih =>
    simp [List.countP_cons, Event.isLedger, ih]

/-- Claim C4: with a non-empty alert aggregation and a working transport, the
email run delivers exactly once to each distinct concrete owner (the
recipient trace equals the duplicate-free concrete-owner key list), the
NO_OWNER sentinel is never addressed, every payload's rendered model set is
the union of the addressed owner's own models and the unowned models, and an
owner map holding only the sentinel yields zero deliveries. -/
theorem c4_mailbox_one_delivery_per_concrete_owner
    (select : List String) (sendAllGood : Bool)
    (mailFrom startDate endDate currentTime : String)
    (alerts : List Alert) (monitored : List MonitoredModel)
    (hval : validate_alert_types select = .ok ())
    (hne : create_models_to_alerts_map alerts select ≠ []) :
    (emailRun select sendAllGood mailFrom startDate endDate currentTime true alerts
        monitored (fun _ => false)).events.filterMap Event.mailTo? =
      (keysOf (create_owners_to_models_map monitored)).filter
        (fun o => decide (o ≠ NO_OWNER)) ∧
    ((keysOf (create_owners_to_models_map monitored)).filter
        (fun o => decide (o ≠ NO_OWNER))).Nodup ∧
    NO_OWNER ∉ (keysOf (create_owners_to_models_map monitored)).filter
        (fun o => decide (o ≠ NO_OWNER)) ∧
    (∀ p ∈ (emailRun select sendAllGood mailFrom startDate endDate currentTime true
        alerts monitored (fun _ => false)).events.filterMap Event.emailPayload?,
      ∀ x : String, x ∈ p.models ↔
        (x ∈ lookupD (create_owners_to_models_map monitored) p.owner [] ∨
          x ∈ lookupD (create_owners_to_models_map monitored) NO_OWNER [])) ∧
    ((keysOf (create_owners_to_models_map monitored)).filter
        (fun o => decide (o ≠ NO_OWNER)) = [] →
      (emailRun select sendAllGood mailFrom startDate endDate currentTime true alerts
        monitored (fun _ => false)).events.countP Event.isDispatch = 0) := by
  have hloop := emailLoop_of_no_break mailFrom (fun _ => false) sendAllGood currentTime
    (create_owners_to_models_map monitored) (create_models_to_alerts_map alerts select)
    (fun hc => hne hc.1) (keysOf (create_owners_to_models_map monitored))
  rw [attempted_of_no_fail _ _ (fun o _ => rfl),
    find?_of_no_fail _ _ (fun o _ => rfl)] at hloop
  have hev : (emailRun select sendAllGood mailFrom startDate endDate currentTime true
      alerts monitored (fun _ => false)).events =
      [Event.exportRun, Event.readExports] ++
        (((keysOf (create_owners_to_models_map monitored)).filter
          (fun o => decide (o ≠ NO_OWNER))).map
            (fun o => Event.emailSend o mailFrom
              (payloadFor (create_owners_to_models_map monitored)
                (create_models_to_alerts_map alerts select) currentTime o))) ++
        [Event.ledgerWrite startDate endDate
          (keysOf (create_models_to_alerts_map alerts select))] := by
    unfold emailRun
    rw [hval]
    simp [hloop]
  refine ⟨?_, ?_, ?_, ?_, ?_⟩
  · rw [hev]
    simp [List.filterMap_append, List.filterMap_cons, Event.mailTo?,
      List.filterMap_map, filterMap_mailTo_sends]
  · exact (create_owners_keys_nodup monitored).filter _
  · simp [List.mem_filter]
  · rw [hev]
    simp only [List.filterMap_append, List.filterMap_cons, List.filterMap_nil,
      Event.emailPayload?, List.filterMap_map, filterMap_payload_sends,
      List.nil_append, List.append_nil]
    intro p hp x
    rcases List.mem_map.mp hp with ⟨o, ho, rfl⟩
    simp [payloadFor, mem_firstDedup, List.mem_append]
  · intro hck
    rw [hev, hck]
    simp [List.countP_append, List.countP_cons, Event.isDispatch]

/-- Witness for Claim C4 at a concrete run: three monitored models, one of
them unowned and one alert — the deliveries go exactly to the two distinct
concrete owners, and each payload lists the owner's models together with the
unowned model. -/
theorem c4_mailbox_one_delivery_per_concrete_owner_witness :
    (emailRun ["anomaly"] true "from@x" "2024-01-01" "2024-01-08" "T" true
        [⟨"orders", "anomaly", "v"⟩]
        [⟨"orders", [], ["a@x.com"]⟩, ⟨"users", [], ["b@y.com", "a@x.com"]⟩,
          ⟨"legacy", [], []⟩]
        (fun _ => false)).events.filterMap Event.mailTo? =
      ["a@x.com", "b@y.com"] := by
  have h := c4_mailbox_one_delivery_per_concrete_owner ["anomaly"] true "from@x"
    "2024-01-01" "2024-01-08" "T" [⟨"orders", "anomaly", "v"⟩]
    [⟨"orders", [], ["a@x.com"]⟩, ⟨"users", [], ["b@y.com", "a@x.com"]⟩,
      ⟨"legacy", [], []⟩] rfl (by decide)
  rw [h.1]
  decide

/-- Claim C10: on the email channel an empty aggregation with send-all-good
enabled produces one message per distinct concrete owner, each rendered from
the empty alert map — not a single all-clear payload as on the broadcast
channel. -/
theorem c10_mailbox_all_good_sends_to_every_concrete_owner
    (select : List String) (mailFrom startDate endDate currentTime : String)
    (alerts : List Alert) (monitored : List MonitoredModel)
    (hval : validate_alert_types select = .ok ())
    (hempty : create_models_to_alerts_map alerts select = []) :
    (emailRun select true mailFrom startDate endDate currentTime true alerts
        monitored (fun _ => false)).events.filterMap Event.mailTo? =
      (keysOf (create_owners_to_models_map monitored)).filter
        (fun o => decide (o ≠ NO_OWNER)) ∧
    (∀ p ∈ (emailRun select true mailFrom startDate endDate currentTime true alerts
        monitored (fun _ => false)).events.filterMap Event.emailPayload?,
      p.alertsMap = []) ∧
    (emailRun select true mailFrom startDate endDate currentTime true alerts
        monitored (fun _ => false)).events.countP Event.isDispatch =
      ((keysOf (create_owners_to_models_map monitored)).filter
        (fun o => decide (o ≠ NO_OWNER))).length := by
  have hloop := emailLoop_of_no_break mailFrom (fun _ => false) true currentTime
    (create_owners_to_models_map monitored) (create_models_to_alerts_map alerts select)
    (by simp) (keysOf (create_owners_to_models_map monitored))
  rw [attempted_of_no_fail _ _ (fun o _ => rfl),
    find?_of_no_fail _ _ (fun o _ => rfl)] at hloop
  have hev : (emailRun select true mailFrom startDate endDate currentTime true
      alerts monitored (fun _ => false)).events =
      [Event.exportRun, Event.readExports] ++
        (((keysOf (create_owners_to_models_map monitored)).filter
          (fun o => decide (o ≠ NO_OWNER))).map
            (fun o => Event.emailSend o mailFrom
              (payloadFor (create_owners_to_models_map monitored)
                (create_models_to_alerts_map alerts select) currentTime o))) ++
        [Event.ledgerWrite startDate endDate
          (keysOf (create_models_to_alerts_map alerts select))] := by
    unfold emailRun
    rw [hval]
    simp [hloop]
  refine ⟨?_, ?_, ?_⟩
  · rw [hev]
    simp [List.filterMap_append, List.filterMap_cons, Event.mailTo?,
      List.filterMap_map, filterMap_mailTo_sends]
  · rw [hev]
    simp only [List.filterMap_append, List.filterMap_cons, List.filterMap_nil,
      Event.emailPayload?, List.filterMap_map, filterMap_payload_sends,
      List.nil_append, List.append_nil]
    intro p hp
    rcases List.mem_map.mp hp with ⟨o, ho, rfl⟩
    simp [payloadFor, hempty]
  · rw [hev]
    simp [List.countP_append, List.countP_cons, Event.isDispatch,
      countP_isDispatch_sends]

/-- Witness for Claim C10: two concrete owners and no qualifying alerts with
send-all-good on — the run sends two messages, one per owner, not one. -/
theorem c10_mailbox_all_good_sends_to_every_concrete_owner_witness :
    (emailRun ["anomaly"] true "from@x" "2024-01-01" "2024-01-08" "T" true []
        [⟨"orders", [], ["a@x.com"]⟩, ⟨"users", [], ["b@y.com"]⟩]
        (fun _ => false)).events.countP Event.isDispatch = 2 := by
  have h := c10_mailbox_all_good_sends_to_every_concrete_owner ["anomaly"] "from@x"
    "2024-01-01" "2024-01-08" "T" []
    [⟨"orders", [], ["a@x.com"]⟩, ⟨"users", [], ["b@y.com"]⟩] rfl rfl
  rw [h.2.2]
  decide

theorem emailLoop_events_send (mailFrom : String) (sendFails : String → Bool)
    (sendAllGood : Bool) (currentTime : String)
    (ownersMap : List (String × List String))
    (alertsMap : List (String × List Alert)) (keys : List String) :
    ∀ e ∈ (emailLoop mailFrom sendFails sendAllGood currentTime ownersMap alertsMap
        keys).1,
      ∃ o, e = Event.emailSend o mailFrom
        (payloadFor ownersMap alertsMap currentTime o) := by
  induction keys with
  | nil => intro e he; cases he
  | cons o rest ih =>
    intro e he
    by_cases h : o = NO_OWNER
    · rw [emailLoop] at he
      rw [if_pos h] at he
      exact ih e he
    · rw [emailLoop] at he
      rw [if_neg h] at he
      by_cases hc : alertsMap = [] ∧ sendAllGood = false
      · rw [if_pos hc] at he
        cases he
      · rw [if_neg hc] at he
        by_cases hf : sendFails o = true
        · simp only [hf, if_true] at he
          rcases List.mem_singleton.mp he with rfl
          exact ⟨o, rfl⟩
        · have hf' : sendFails o = false := by
            cases hq : sendFails o
            · rfl
            · exact absurd hq hf
          simp only [hf', Bool.false_eq_true, if_false] at he
          rcases List.mem_cons.mp he with rfl | he'
          · exact ⟨o, rfl⟩
          · exact ih e he'

/-- Counterexample to Claim C3: a concrete email run with two concrete
owners in which the transport fails for the first one — the second owner
never receives a delivery attempt, no retry happens, and the run ends in a
transport error without any aggregate record (no ledger event), so a
transport failure for one recipient does block the remaining recipients. -/
theorem c3_counterexample_failure_blocks_remaining_recipients :
    (emailRun ["anomaly"] true "from@x" "2024-01-01" "2024-01-08" "T" true
        [⟨"orders", "anomaly", "v"⟩, ⟨"users", "anomaly", "w"⟩]
        [⟨"orders", [], ["a@x.com"]⟩, ⟨"users", [], ["b@y.com"]⟩]
        (fun o => o == "a@x.com")).events.filterMap Event.mailTo? = ["a@x.com"] ∧
    (emailRun ["anomaly"] true "from@x" "2024-01-01" "2024-01-08" "T" true
        [⟨"orders", "anomaly", "v"⟩, ⟨"users", "anomaly", "w"⟩]
        [⟨"orders", [], ["a@x.com"]⟩, ⟨"users", [], ["b@y.com"]⟩]
        (fun o => o == "a@x.com")).error = some (.transportFailed "a@x.com") ∧
    (emailRun ["anomaly"] true "from@x" "2024-01-01" "2024-01-08" "T" true
        [⟨"orders", "anomaly", "v"⟩, ⟨"users", "anomaly", "w"⟩]
        [⟨"orders", [], ["a@x.com"]⟩, ⟨"users", [], ["b@y.com"]⟩]
        (fun o => o == "a@x.com")).events.countP Event.isLedger = 0 := by
  refine ⟨?_, ?_, ?_⟩ <;> decide

/-- Claim C3 (amended): the email run attempts each concrete owner at most
once, in iteration order, stopping at — and including — the first owner whose
transport fails; the remaining owners receive no attempts, there are no
retries, and when some owner fails the run ends with that owner's transport
error and writes no aggregate ledger record. -/
theorem c3_amended_transport_failure_aborts_remaining
    (select : List String) (sendAllGood : Bool)
    (mailFrom startDate endDate currentTime : String)
    (alerts : List Alert) (monitored : List MonitoredModel)
    (sendFails : String → Bool)
    (hval : validate_alert_types select = .ok ())
    (hne : create_models_to_alerts_map alerts select ≠ []) :
    (emailRun select sendAllGood mailFrom startDate endDate currentTime true alerts
        monitored sendFails).events.filterMap Event.mailTo? =
      attempted sendFails ((keysOf (create_owners_to_models_map monitored)).filter
        (fun o => decide (o ≠ NO_OWNER))) ∧
    ∀ ow : String,
      ((keysOf (create_owners_to_models_map monitored)).filter
        (fun o => decide (o ≠ NO_OWNER))).find? sendFails = some ow →
      (emailRun select sendAllGood mailFrom startDate endDate currentTime true alerts
        monitored sendFails).error = some (.transportFailed ow) ∧
      (emailRun select sendAllGood mailFrom startDate endDate currentTime true alerts
        monitored sendFails).events.countP Event.isLedger = 0 := by
  have hloop := emailLoop_of_no_break mailFrom sendFails sendAllGood currentTime
    (create_owners_to_models_map monitored) (create_models_to_alerts_map alerts select)
    (fun hc => hne hc.1) (keysOf (create_owners_to_models_map monitored))
  cases hf : ((keysOf (create_owners_to_models_map monitored)).filter
      (fun o => decide (o ≠ NO_OWNER))).find? sendFails with
  | none =>
    rw [hf] at hloop
    have hres : emailRun select sendAllGood mailFrom startDate endDate currentTime true
        alerts monitored sendFails =
        ⟨[Event.exportRun, Event.readExports] ++
          ((attempted sendFails ((keysOf (create_owners_to_models_map monitored)).filter
            (fun o => decide (o ≠ NO_OWNER)))).map
              (fun o => Event.emailSend o mailFrom
                (payloadFor (create_owners_to_models_map monitored)
                  (create_models_to_alerts_map alerts select) currentTime o))) ++
          [Event.ledgerWrite startDate endDate
            (keysOf (create_models_to_alerts_map alerts select))], none⟩ := by
      unfold emailRun
      rw [hval]
      simp [hloop]
    constructor
    · rw [hres]
      simp [List.filterMap_append, List.filterMap_cons, Event.mailTo?,
        List.filterMap_map, filterMap_mailTo_sends]
    · intro ow how
      cases how
  | some ow0 =>
    rw [hf] at hloop
    have hres : emailRun select sendAllGood mailFrom startDate endDate currentTime true
        alerts monitored sendFails =
        ⟨[Event.exportRun, Event.readExports] ++
          ((attempted sendFails ((keysOf (create_owners_to_models_map monitored)).filter
            (fun o => decide (o ≠ NO_OWNER)))).map
              (fun o => Event.emailSend o mailFrom
                (payloadFor (create_owners_to_models_map monitored)
                  (create_models_to_alerts_map alerts select) currentTime o))),
          some (.transportFailed ow0)⟩ := by
      unfold emailRun
      rw [hval]
      simp [hloop]
    constructor
    · rw [hres]
      simp [List.filterMap_append, List.filterMap_cons, Event.mailTo?,
        List.filterMap_map, filterMap_mailTo_sends]
    · intro ow how
      rcases Option.some.inj how with rfl
      rw [hres]
      refine ⟨rfl, ?_⟩
      simp [List.countP_append, List.countP_cons, Event.isLedger,
        countP_isLedger_sends]

/-- Witness for Claim C3 (amended) at a concrete run with three concrete
owners where the second one's transport fails: exactly the first two are
attempted, in order, and no ledger entry is written. -/
theorem c3_amended_transport_failure_aborts_remaining_witness :
    (emailRun ["anomaly"] true "from@x" "2024-01-01" "2024-01-08" "T" true
        [⟨"orders", "anomaly", "v"⟩]
        [⟨"orders", [], ["a@x.com"]⟩, ⟨"users", [], ["b@y.com"]⟩,
          ⟨"events", [], ["c@z.com"]⟩]
        (fun o => o == "b@y.com")).events.filterMap Event.mailTo? =
      ["a@x.com", "b@y.com"] ∧
    (emailRun ["anomaly"] true "from@x" "2024-01-01" "2024-01-08" "T" true
        [⟨"orders", "anomaly", "v"⟩]
        [⟨"orders", [], ["a@x.com"]⟩, ⟨"users", [], ["b@y.com"]⟩,
          ⟨"events", [], ["c@z.com"]⟩]
        (fun o => o == "b@y.com")).events.countP Event.isLedger = 0 := by
  have h := c3_amended_transport_failure_aborts_remaining ["anomaly"] true "from@x"
    "2024-01-01" "2024-01-08" "T" [⟨"orders", "anomaly", "v"⟩]
    [⟨"orders", [], ["a@x.com"]⟩, ⟨"users", [], ["b@y.com"]⟩,
      ⟨"events", [], ["c@z.com"]⟩]
    (fun o => o == "b@y.com") rfl (by decide)
  refine ⟨?_, (h.2 "b@y.com" (by decide)).2⟩
  rw [h.1]
  decide

theorem countP_isLedger_notifies (webhookUrl subtitle : String)
    (select : List String) (members : List (String × List String))
    (apm : List (String × List Alert)) :
    (apm.map (fun md => Event.slackNotify webhookUrl
        (.modelAlert md.1 md.2 (lookupD members md.1 []) subtitle select))).countP
      Event.isLedger = 0 := by
  induction apm with
  | nil => rfl
  | cons md rest ih =>
    simp [List.countP_cons, Event.isLedger, ih]

theorem emailLoop_countP_isLedger (mailFrom : String) (sendFails : String → Bool)
    (sendAllGood : Bool) (currentTime : String)
    (ownersMap : List (String × List String))
    (alertsMap : List (String × List Alert)) (keys : List String) :
    ((emailLoop mailFrom sendFails sendAllGood currentTime ownersMap alertsMap
      keys).1).countP Event.isLedger = 0 := by
  rw [List.countP_eq_zero]
  intro e he
  rcases emailLoop_events_send mailFrom sendFails sendAllGood currentTime ownersMap
    alertsMap keys e he with ⟨o, rfl⟩
  simp [Event.isLedger]

/-- Counterexample to Claim C6: a concrete email invocation that reaches
dispatch (one dispatch event occurs) but, because the transport fails, writes
zero ledger entries — so it is not the case that every invocation reaching
dispatch writes exactly one ledger entry. -/
theorem c6_counterexample_failed_dispatch_writes_no_ledger :
    (emailRun ["anomaly"] true "from@x" "2024-02-01" "2024-02-08" "T" true
        [⟨"sales", "anomaly", "x"⟩] [⟨"sales", [], ["ops@c.com"]⟩]
        (fun o => o == "ops@c.com")).events.countP Event.isDispatch = 1 ∧
    (emailRun ["anomaly"] true "from@x" "2024-02-01" "2024-02-08" "T" true
        [⟨"sales", "anomaly", "x"⟩] [⟨"sales", [], ["ops@c.com"]⟩]
        (fun o => o == "ops@c.com")).events.countP Event.isLedger = 0 := by
  refine ⟨?_, ?_⟩ <;> decide

/-- Claim C6 (amended): for an invocation that reaches dispatch (validation
passed and the export succeeded), when no dispatch attempt's transport fails
exactly one ledger entry is written, as the final event after all dispatch
events; when a transport failure aborts the run, zero ledger entries are
written; and with zero qualifying alerts and send-all-good disabled, both
channels perform zero dispatch events and still write the one empty-result
ledger entry. -/
theorem c6_amended_ledger_once_after_dispatch
    (select : List String) (sendAllGood : Bool)
    (webhookUrl subtitle mailFrom startDate endDate currentTime : String)
    (alerts : List Alert) (monitored : List MonitoredModel)
    (sendFails : String → Bool)
    (hval : validate_alert_types select = .ok ()) :
    ((slackRun select sendAllGood webhookUrl subtitle startDate endDate true alerts
        monitored).events.countP Event.isLedger = 1 ∧
      (slackRun select sendAllGood webhookUrl subtitle startDate endDate true
        alerts monitored).events.getLast? = some (Event.ledgerWrite startDate endDate
          (keysOf (prepare_exported_alerts_per_model alerts select)))) ∧
    ((emailRun select sendAllGood mailFrom startDate endDate currentTime true
        alerts monitored sendFails).error = none →
      (emailRun select sendAllGood mailFrom startDate endDate currentTime true
        alerts monitored sendFails).events.countP Event.isLedger = 1 ∧
      (emailRun select sendAllGood mailFrom startDate endDate currentTime true
        alerts monitored sendFails).events.getLast? =
          some (Event.ledgerWrite startDate endDate
            (keysOf (create_models_to_alerts_map alerts select)))) ∧
    (∀ ow : String,
      (emailRun select sendAllGood mailFrom startDate endDate currentTime true
        alerts monitored sendFails).error = some (.transportFailed ow) →
      (emailRun select sendAllGood mailFrom startDate endDate currentTime true
        alerts monitored sendFails).events.countP Event.isLedger = 0) ∧
    (prepare_exported_alerts_per_model alerts select = [] →
      (slackRun select false webhookUrl subtitle startDate endDate true alerts
        monitored).events.countP Event.isDispatch = 0 ∧
      (slackRun select false webhookUrl subtitle startDate endDate true alerts
        monitored).events.countP Event.isLedger = 1) ∧
    (create_models_to_alerts_map alerts select = [] →
      (emailRun select false mailFrom startDate endDate currentTime true alerts
        monitored sendFails).events.countP Event.isDispatch = 0 ∧
      (emailRun select false mailFrom startDate endDate currentTime true alerts
        monitored sendFails).events.countP Event.isLedger = 1) := by
  refine ⟨?_, ?_, ?_, ?_, ?_⟩
  · constructor
    · unfold slackRun
      rw [hval]
      by_cases hc : prepare_exported_alerts_per_model alerts select = [] ∧
        sendAllGood = true
      · simp [hc.1, hc.2, List.countP_append, List.countP_cons, Event.isLedger,
          countP_isLedger_notifies]
      · simp [hc, List.countP_append, List.countP_cons, Event.isLedger,
          countP_isLedger_notifies]
    · unfold slackRun
      rw [hval]
      exact List.getLast?_concat _
  · intro herr
    cases hr2 : (emailLoop mailFrom sendFails sendAllGood currentTime
        (create_owners_to_models_map monitored)
        (create_models_to_alerts_map alerts select)
        (keysOf (create_owners_to_models_map monitored))).2 with
    | some e =>
      exfalso
      revert herr
      unfold emailRun
      rw [hval]
      simp [hr2]
    | none =>
      have hev : (emailRun select sendAllGood mailFrom startDate endDate currentTime
          true alerts monitored sendFails).events =
          [Event.exportRun, Event.readExports] ++
            (emailLoop mailFrom sendFails sendAllGood currentTime
              (create_owners_to_models_map monitored)
              (create_models_to_alerts_map alerts select)
              (keysOf (create_owners_to_models_map monitored))).1 ++
            [Event.ledgerWrite startDate endDate
              (keysOf (create_models_to_alerts_map alerts select))] := by
        unfold emailRun
        rw [hval]
        simp [hr2]
      rw [hev]
      constructor
      · simp [List.countP_append, List.countP_cons, Event.isLedger,
          emailLoop_countP_isLedger]
      · exact List.getLast?_concat _
  · intro ow herr
    cases hr2 : (emailLoop mailFrom sendFails sendAllGood currentTime
        (create_owners_to_models_map monitored)
        (create_models_to_alerts_map alerts select)
        (keysOf (create_owners_to_models_map monitored))).2 with
    | none =>
      exfalso
      revert herr
      unfold emailRun
      rw [hval]
      simp [hr2]
    | some e =>
      have hev : (emailRun select sendAllGood mailFrom startDate endDate currentTime
          true alerts monitored sendFails).events =
          [Event.exportRun, Event.readExports] ++
            (emailLoop mailFrom sendFails sendAllGood currentTime
              (create_owners_to_models_map monitored)
              (create_models_to_alerts_map alerts select)
              (keysOf (create_owners_to_models_map monitored))).1 := by
        unfold emailRun
        rw [hval]
        simp [hr2]
      rw [hev]
      simp [List.countP_append, List.countP_cons, Event.isLedger,
        emailLoop_countP_isLedger]
  · intro he
    unfold slackRun
    rw [hval]
    simp [he, List.countP_append, List.countP_cons, Event.isLedger, Event.isDispatch]
  · intro he
    unfold emailRun
    rw [hval]
    simp [emailLoop_of_break _ _ _ _ _ _ ⟨he, rfl⟩, List.countP_append,
      List.countP_cons, Event.isLedger, Event.isDispatch]

/-- Witness for Claim C6 (amended): a concrete successful email run writes
exactly one ledger entry, and a concrete empty run with send-all-good off
performs zero dispatch events yet still writes its one ledger entry. -/
theorem c6_amended_ledger_once_after_dispatch_witness :
    (emailRun ["anomaly"] true "from@x" "2024-02-01" "2024-02-08" "T" true
        [⟨"sales", "anomaly", "x"⟩] [⟨"sales", [], ["ops@c.com"]⟩]
        (fun _ => false)).events.countP Event.isLedger = 1 ∧
    (slackRun ["anomaly"] false "wh" "sub" "2024-02-01" "2024-02-08" true []
        []).events.countP Event.isDispatch = 0 ∧
    (slackRun ["anomaly"] false "wh" "sub" "2024-02-01" "2024-02-08" true []
        []).events.countP Event.isLedger = 1 := by
  have h := c6_amended_ledger_once_after_dispatch ["anomaly"] true "wh" "sub"
    "from@x" "2024-02-01" "2024-02-08" "T" [⟨"sales", "anomaly", "x"⟩]
    [⟨"sales", [], ["ops@c.com"]⟩] (fun _ => false) rfl
  have h2 := c6_amended_ledger_once_after_dispatch ["anomaly"] false "wh" "sub"
    "from@x" "2024-02-01" "2024-02-08" "T" [] [] (fun _ => false) rfl
  exact ⟨(h.2.1 (by decide)).1, (h2.2.2.2.1 rfl).1, (h2.2.2.2.1 rfl).2⟩

/-- Claim C5: an alert record whose type is outside the selected alert-type
set never occurs in the rendered content of any event of either channel's
run, whatever the remaining inputs and transport behaviour are. -/
theorem c5_excluded_alert_never_in_payload
    (a : Alert) (select : List String) (sendAllGood : Bool)
    (webhookUrl subtitle mailFrom startDate endDate currentTime : String)
    (exportOk : Bool) (alerts : List Alert) (monitored : List MonitoredModel)
    (sendFails : String → Bool)
    (ha : a.type ∉ select) :
    (∀ e ∈ (slackRun select sendAllGood webhookUrl subtitle startDate endDate exportOk
        alerts monitored).events, ¬ alertInEvent a e) ∧
    (∀ e ∈ (emailRun select sendAllGood mailFrom startDate endDate currentTime
        exportOk alerts monitored sendFails).events, ¬ alertInEvent a e) := by
  have htypesS : ∀ p ∈ prepare_exported_alerts_per_model alerts select,
      ∀ x ∈ p.2, x.type ∈ select := by
    unfold prepare_exported_alerts_per_model
    exact buildAlertsMap_types select alerts []
      (fun p hp => absurd hp (List.not_mem_nil p))
  have htypesE : ∀ p ∈ create_models_to_alerts_map alerts select,
      ∀ x ∈ p.2, x.type ∈ select := by
    unfold create_models_to_alerts_map
    exact buildAlertsMap_types select alerts []
      (fun p hp => absurd hp (List.not_mem_nil p))
  constructor
  · intro e he
    unfold slackRun at he
    cases hv : validate_alert_types select with
    | error bad =>
      rw [hv] at he
      cases he
    | ok u =>
      rw [hv] at he
      cases exportOk with
      | false =>
        rcases List.mem_singleton.mp he with rfl
        simp [alertInEvent]
      | true =>
        rcases List.mem_append.mp he with h1 | hL
        · rcases List.mem_append.mp h1 with h2 | hA
          · rcases List.mem_append.mp h2 with h3 | hN
            · rcases List.mem_cons.mp h3 with rfl | h4
              · simp [alertInEvent]
              · rcases List.mem_singleton.mp h4 with rfl
                simp [alertInEvent]
            · rcases List.mem_map.mp hN with ⟨md, hmd, rfl⟩
              simp only [alertInEvent]
              intro hmem
              exact ha (htypesS md hmd a hmem)
          · by_cases hc : prepare_exported_alerts_per_model alerts select = [] ∧
              sendAllGood = true
            · rw [if_pos hc] at hA
              rcases List.mem_singleton.mp hA with rfl
              simp [alertInEvent]
            · rw [if_neg hc] at hA
              cases hA
        · rcases List.mem_singleton.mp hL with rfl
          simp [alertInEvent]
  · intro e he
    unfold emailRun at he
    cases hv : validate_alert_types select with
    | error bad =>
      rw [hv] at he
      cases he
    | ok u =>
      rw [hv] at he
      cases exportOk with
      | false =>
        rcases List.mem_singleton.mp he with rfl
        simp [alertInEvent]
      | true =>
        cases hr2 : (emailLoop mailFrom sendFails sendAllGood currentTime
            (create_owners_to_models_map monitored)
            (create_models_to_alerts_map alerts select)
            (keysOf (create_owners_to_models_map monitored))).2 with
        | some err =>
          simp only [] at he
          rw [hr2] at he
          rcases List.mem_append.mp he with h1 | h2
          · rcases List.mem_cons.mp h1 with rfl | h1'
            · simp [alertInEvent]
            · rcases List.mem_singleton.mp h1' with rfl
              simp [alertInEvent]
          · rcases emailLoop_events_send _ _ _ _ _ _ _ e h2 with ⟨o, rfl⟩
            simp only [alertInEvent, payloadFor]
            rintro ⟨entry, hentry, hmem⟩
            exact ha (htypesE entry hentry a hmem)
        | none =>
          simp only [] at he
          rw [hr2] at he
          rcases List.mem_append.mp he with h1 | hL
          · rcases List.mem_append.mp h1 with h2 | h3
            · rcases List.mem_cons.mp h2 with rfl | h2'
              · simp [alertInEvent]
              · rcases List.mem_singleton.mp h2' with rfl
                simp [alertInEvent]
            · rcases emailLoop_events_send _ _ _ _ _ _ _ e h3 with ⟨o, rfl⟩
              simp only [alertInEvent, payloadFor]
              rintro ⟨entry, hentry, hmem⟩
              exact ha (htypesE entry hentry a hmem)
          · rcases List.mem_singleton.mp hL with rfl
            simp [alertInEvent]

/-- Witness for Claim C5: the schema-change record excluded by the anomaly
selection does not appear in the per-model payload the concrete slack run
dispatches. -/
theorem c5_excluded_alert_never_in_payload_witness :
    ¬ alertInEvent ⟨"orders", "schema_change", "x"⟩
      (Event.slackNotify "wh" (.modelAlert "orders" [⟨"orders", "anomaly", "v"⟩]
        ["@o"] "sub" ["anomaly"])) := by
  have h := c5_excluded_alert_never_in_payload ⟨"orders", "schema_change", "x"⟩
    ["anomaly"] true "wh" "sub" "from@x" "2024-01-01" "2024-01-08" "T" true
    [⟨"orders", "anomaly", "v"⟩] [⟨"orders", ["@o"], ["a@x.com"]⟩] (fun _ => false)
    (by decide)
  exact h.1 _ (by decide)

end ReData
